import Mathlib

/-!
Shallow embedding of the ZeroTier VL1 core (src/node/VL1.cpp, Topology.hpp,
Peer.hpp, Trace.cpp, include/ZeroTierCore.h) used to check the
natural-language specification of the repository.

Machine integers are modelled as Nat (with explicit reduction mod 2^w where
the C++ computes modulo a word size) and int64 timestamps as Int.  Stateful
C++ code becomes explicit state passing; side effects (trace emission, packet
sends, contact attempts, try-queue insertion) are collected in an explicit
effect record.  Cryptographic primitives (Poly1305, Salsa20, HMAC-SHA384) and
byte-level unmarshalling of Identity/Endpoint are not part of the given
sources; they are abstracted as oracle parameters over which the theorems
quantify.  Components that the sources only declare or call (the Expect
table, several protocol constants) are modelled from the spec and marked so
in their doc comments.
-/

namespace ZeroTier

/-- 40-bit ZeroTier address (the least-significant 40 bits of a 64-bit word). -/
structure Address where
  val : Nat
deriving DecidableEq, Repr

/-- The fields of an InetAddress that the embedded code reads: the address
family together with the address words and port.  The v4 constructor carries
the 32-bit `s_addr` word (raw in-memory word, bytes in network order) and the
16-bit port; the v6 constructor carries the two 64-bit halves of the 16-byte
address as read by `loadAsIsEndian` in `Topology::s_getPathKey`, and the
port; `other` carries raw bytes for the fallback family. -/
inductive InetAddress where
  | v4 (addr : Nat) (port : Nat)
  | v6 (w0 : Nat) (w1 : Nat) (port : Nat)
  | other (bytes : List Nat)
deriving DecidableEq, Repr

/-- Little-endian word value of a byte list, standing for `loadAsIsEndian`
and raw word aliasing of byte arrays on a little-endian host. -/
def leWord (bytes : List Nat) : Nat :=
  bytes.foldr (fun b acc => (b % 256) + 256 * acc) 0

/-- FNV-1a 32-bit hash over a byte list, as in `Utils::fnv1a32`. -/
def fnv1a32 (bytes : List Nat) : Nat :=
  bytes.foldl (fun h b => ((h ^^^ (b % 256)) * 0x01000193) % 4294967296) 0x811c9dc5

/-- InetAddress::set(bytes,len,port): a 4-byte address becomes v4, a 16-byte
address becomes v6, anything else the fallback family. -/
def InetAddress.set (bytes : List Nat) (len port : Nat) : InetAddress :=
  if len = 4 then .v4 (leWord (bytes.take 4)) port
  else if len = 16 then .v6 (leWord (bytes.take 8)) (leWord ((bytes.drop 8).take 8)) port
  else .other bytes

/-- Composite 64-bit lookup key for the path map, `Topology::s_getPathKey`.
The local socket (an int64 in the C++) is taken here as its uint64 image. -/
def s_getPathKey (l : Nat) (r : InetAddress) : Nat :=
  match r with
  | .v4 addr port => ((addr <<< 32) ^^^ (port <<< 16) ^^^ l) % 18446744073709551616
  | .v6 w0 w1 port => (w0 + w1 + port + l) % 18446744073709551616
  | .other bytes => (fnv1a32 bytes + l) % 18446744073709551616

/-- A Path instance is identified by the order in which it was allocated;
two SharedPtr results denote the same Path instance iff they hold equal ids. -/
abbrev PathId := Nat

/-- The path portion of Topology state: the map `m_paths`, declared in the
source as `Map< uint64_t,SharedPtr<Path> >` (keyed by the composite 64-bit
key alone), plus an allocation counter standing for `new Path(l,r)`. -/
structure TopoPaths where
  entries : List (Nat × PathId)
  nextId : PathId
deriving DecidableEq, Repr

/-- `Topology::path(l,r)`: look up the composite key; on a miss, allocate a
new Path and insert it under that key.  The C++ double-checked read/write
lock sequence collapses to this in a sequential model. -/
def Topology.path (st : TopoPaths) (l : Nat) (r : InetAddress) : PathId × TopoPaths :=
  let k := s_getPathKey l r
  match st.entries.lookup k with
  | some pid => (pid, st)
  | none => (st.nextId, ⟨(k, st.nextId) :: st.entries, st.nextId + 1⟩)

/-- Identity as consumed by the VL1 handlers.  `keyMaterial` stands for the
public key bytes (two identities are equal iff all fields are equal, matching
byte equality of key material for a fixed address).  `powValid` is the result
of `locallyValidate()` and `agreeOk` the success of key agreement inside
`Peer::init`; both are memory-hard-hash / elliptic-curve computations whose
implementations are not under src/, so they are carried as abstract outcomes. -/
structure Identity where
  addr : Address
  keyMaterial : Nat
  powValid : Bool
  agreeOk : Bool
deriving DecidableEq, Repr

/-- Endpoint restricted to the variants the given handlers inspect. -/
inductive Endpoint where
  | nilEp
  | inet4 (a : InetAddress)
  | inet6 (a : InetAddress)
  | unsupported (tag : Nat)
deriving DecidableEq, Repr

/-- Endpoint(InetAddress) constructor. -/
def Endpoint.fromInet (a : InetAddress) : Endpoint :=
  match a with
  | .v4 _ _ => .inet4 a
  | .v6 _ _ _ => .inet6 a
  | .other _ => .nilEp

/-- The inetAddr() accessor (meaningful for the inet variants). -/
def Endpoint.inetAddr (e : Endpoint) : InetAddress :=
  match e with
  | .inet4 a => a
  | .inet6 a => a
  | _ => .other []

/-- Protocol verbs used by the embedded dispatcher and handlers. -/
inductive Verb where
  | nop | hello | error | ok | whois | rendezvous | echo | pushDirectPaths
  | userMessage | encap | otherVerb (n : Nat)
deriving DecidableEq, Repr

/-- Packet drop reasons, mirroring `ZT_TRACE_PACKET_DROP_REASON_*` in
include/ZeroTierCore.h. -/
inductive PacketDropReason where
  | unspecified | peerTooOld | malformedPacket | macFailed | notTrustedPath
  | rateLimitExceeded | invalidObject | invalidCompressedData | unrecognizedVerb
  | replyNotExpected
deriving DecidableEq, Repr

/-- Trace events as emitted through Trace (Trace.cpp forwards each call to a
host event with the same fields; only fields the claims mention are kept). -/
inductive TraceEvent where
  | incomingPacketDropped (codeLocation : Nat) (packetId : Nat) (verb : Verb)
      (reason : PacketDropReason)
  | tryingNewPath (codeLocation : Nat) (trying : Address)
      (physicalAddress : InetAddress) (triggeringPeer : Address)
deriving DecidableEq, Repr

/-- Outbound packets fed to the host send callback, at the abstraction level
the claims talk about. -/
inductive SendEvent where
  | okEcho (destination : Address) (inRePacketId : Nat) (payload : List Nat)
  | whoisRequest (destination : Address) (packetId : Nat) (queried : List Address)
deriving DecidableEq, Repr

/-- Collected side effects of a handler invocation.  `contacts` records
`Peer::tryToContactAt` calls (which peer object the method was invoked on and
the endpoint given to it); `tryQueueAdds` records `Peer::tryDirectPath`
calls, i.e. additions to a peer's try-queue. -/
structure Effects where
  traces : List TraceEvent := []
  sends : List SendEvent := []
  contacts : List (Address × Endpoint) := []
  tryQueueAdds : List (Address × Endpoint) := []
deriving DecidableEq, Repr

/-- Modelled from the spec: value of `ZT_PEER_WHOIS_RATE_LIMIT` (Constants.hpp
is not under src/); the claims about the gate are invariant in the value. -/
def ZT_PEER_WHOIS_RATE_LIMIT : Int := 1000

/-- Modelled from the spec: value of `ZT_PEER_GENERAL_RATE_LIMIT`
(Constants.hpp is not under src/); the claims are invariant in the value. -/
def ZT_PEER_GENERAL_RATE_LIMIT : Int := 500

/-- Modelled from the spec: value of `ZT_WHOIS_RETRY_DELAY` (Constants.hpp is
not under src/); the claims are invariant in the value. -/
def ZT_WHOIS_RETRY_DELAY : Int := 500

/-- Modelled from the spec: ring capacity `ZT_VL1_MAX_WHOIS_WAITING_PACKETS`
(VL1.hpp is not under src/); the claims are invariant in the value. -/
def ZT_VL1_MAX_WHOIS_WAITING_PACKETS : Nat := 4

/-- Modelled from the spec: the Expect deadline ("a short deadline"); the
claims are invariant in the value. -/
def ZT_EXPECT_TTL : Int := 2000

/-- Minimum assembled packet length: the 27-byte header plus the verb byte
(spec packet-layout table; Protocol.hpp is not under src/). -/
def ZT_PROTO_MIN_PACKET_LENGTH : Nat := 28

/-- Offset where the encryption envelope (and Poly1305 coverage) begins,
right after the 27-byte outer header per the spec packet-layout table. -/
def ZT_PROTO_PACKET_ENCRYPTED_SECTION_START : Nat := 27

/-- Length of an HMAC-SHA384 tag. -/
def ZT_HMACSHA384_LEN : Nat := 48

/-- Buf capacity: the spec fixes Buf at 16 KiB (Buf.hpp is not under src/). -/
def ZT_BUF_MEM_SIZE : Nat := 16384

/-- Modelled from the spec: sizeof(Protocol::Header) = 27-byte outer header
plus the verb byte (spec packet-layout table; Protocol.hpp not under src/). -/
def PROTO_HEADER_SIZE : Nat := 28

/-- Modelled from the spec: sizeof(Protocol::OK::Header) — the header plus
in-re verb (1) and in-re packet id (8) used for OK correlation. -/
def OK_HEADER_SIZE : Nat := 37

/-- Modelled from the spec: sizeof(Protocol::OK::ECHO), identical to the OK
header; the echoed payload follows it. -/
def OK_ECHO_SIZE : Nat := 37

/-- Modelled from the spec: sizeof(Protocol::ERROR::Header) — the OK header
fields plus the single error-code byte. -/
def ERROR_HEADER_SIZE : Nat := 38

/-- Modelled from the spec: sizeof(Protocol::RENDEZVOUS) — header plus the
third-party address (5), port (2) and address length (1). -/
def RENDEZVOUS_SIZE : Nat := 36

/-- Modelled from the spec: sizeof(Protocol::PUSH_DIRECT_PATHS) — header plus
the 16-bit path count. -/
def PUSH_DIRECT_PATHS_SIZE : Nat := 30

/-- ZT_ADDRESS_LENGTH: a ZeroTier address is 5 bytes on the wire. -/
def ZT_ADDRESS_LENGTH : Nat := 5

/-- Default UDP payload size (spec wire constants). -/
def ZT_DEFAULT_UDP_MTU : Nat := 1432

/-- Outer cipher suite field (2 bits of the flags byte). -/
inductive Cipher where
  | poly1305None | poly1305Salsa2012 | cnone | aesGmacSiv
deriving DecidableEq, Repr

/-- Per-remote-node state: the Peer fields read or written by the embedded
handlers (Peer.hpp).  `paths` and `alivePathCount` model `m_paths` /
`m_alivePathCount`; `Peer::path(now)` is modelled on top of them. -/
structure PeerState where
  id : Identity
  identityKey : Nat := 0
  lastReceive : Int := 0
  lastWhoisRequestReceived : Int := 0
  lastEchoRequestReceived : Int := 0
  vProto : Nat := 0
  vMajor : Nat := 0
  vMinor : Nat := 0
  vRevision : Nat := 0
  probe : Nat := 0
  alivePathCount : Nat := 0
  paths : List PathId := []
  tryQueue : List Endpoint := []
deriving DecidableEq, Repr

/-- Peer::init: store the identity; key agreement success is the identity's
abstract `agreeOk` outcome. -/
def PeerState.init (id : Identity) : PeerState := { id := id }

/-- Peer::rateGateInboundWhoisRequest (Peer.hpp): admit and stamp only when
at least the rate-limit interval has elapsed since the last accepted one. -/
def PeerState.rateGateInboundWhoisRequest (p : PeerState) (now : Int) : Bool × PeerState :=
  if ZT_PEER_WHOIS_RATE_LIMIT ≤ now - p.lastWhoisRequestReceived then
    (true, { p with lastWhoisRequestReceived := now })
  else (false, p)

/-- Peer::rateGateEchoRequest (Peer.hpp). -/
def PeerState.rateGateEchoRequest (p : PeerState) (now : Int) : Bool × PeerState :=
  if ZT_PEER_GENERAL_RATE_LIMIT ≤ now - p.lastEchoRequestReceived then
    (true, { p with lastEchoRequestReceived := now })
  else (false, p)

/-- Peer::latency (Peer.hpp): loop over the alive paths accumulating the
positive per-path latencies into ltot with count lcnt, then return
`lcnt / ltot` when ltot is positive and -1 otherwise — exactly as written in
the source (the division really is count by total there). -/
def PeerState.latency (alivePathLatencies : List Int) : Int :=
  let r := alivePathLatencies.foldl
    (fun acc lat => if 0 < lat then (acc.1 + lat, acc.2 + 1) else acc)
    ((0 : Int), (0 : Int))
  if 0 < r.1 then r.2 / r.1 else -1

/-- The latency described by claim C10's words: -1 when no alive path has a
positive latency, otherwise the integer mean of the positive latencies (sum
divided by count).  This definition follows the claim, for comparison. -/
def latencyPerClaim (alivePathLatencies : List Int) : Int :=
  let pos := alivePathLatencies.filter (fun lat => decide (0 < lat))
  if pos.isEmpty then -1 else pos.sum / (pos.length : Int)

/-- Peer::path(now): the first stored path when the alive count is positive.
The periodic re-prioritization only re-sorts the stored set; it is modelled
as the stored order. -/
def PeerState.curPath (p : PeerState) : Option PathId :=
  if 0 < p.alivePathCount then p.paths.head? else none

/-- One WHOIS queue entry (`p_WhoisQueueItem`, declared in VL1.hpp which is
not under src/; its fields are taken from their uses in VL1.cpp).  `waiting`
is the fixed ring of stashed assembled ciphertexts, stored as (size, bytes). -/
structure WhoisQueueItem where
  lastRetry : Int := 0
  retries : Nat := 0
  waitingPacketCount : Nat := 0
  waiting : List (Option (Nat × List Nat)) :=
    List.replicate ZT_VL1_MAX_WHOIS_WAITING_PACKETS none
deriving DecidableEq, Repr

/-- Node state visible to the embedded handlers: Topology's peer map, root
set and ranked root list, the dispatcher's WHOIS queue, the Expect table and
the root session-key message counter. -/
structure NodeState where
  peers : List (Address × PeerState) := []
  roots : List Identity := []
  rootPeers : List Address := []
  whoisQueue : List (Address × WhoisQueueItem) := []
  expect : List (Nat × Int) := []
  keyCounter : Nat := 0
deriving DecidableEq, Repr

/-- Replace the value under a key, or insert it when absent (the semantics of
`map[key] = value` on the C++ maps). -/
def alSet {α β : Type} [DecidableEq α] (l : List (α × β)) (k : α) (v : β) : List (α × β) :=
  if (l.lookup k).isSome then l.map (fun e => if e.1 = k then (k, v) else e)
  else (k, v) :: l

/-- Update the peer stored under an address, if present. -/
def NodeState.updatePeer (st : NodeState) (a : Address) (f : PeerState → PeerState) : NodeState :=
  { st with peers := st.peers.map (fun e => if e.1 = a then (e.1, f e.2) else e) }

/-- Modelled from the spec: `Expect::sending(packetId,now)` (Expect.hpp is
not under src/) records an expectation with a short deadline. -/
def Expect.sending (tbl : List (Nat × Int)) (packetId : Nat) (now : Int) : List (Nat × Int) :=
  (packetId, now + ZT_EXPECT_TTL) :: tbl

/-- Modelled from the spec: `Expect::expecting(packetId,now)` (Expect.hpp is
not under src/) returns true and retires the entry if unexpired. -/
def Expect.expecting (tbl : List (Nat × Int)) (packetId : Nat) (now : Int) :
    Bool × List (Nat × Int) :=
  match tbl.lookup packetId with
  | some deadline =>
      if now ≤ deadline then (true, tbl.filter (fun e => e.1 != packetId))
      else (false, tbl)
  | none => (false, tbl)

/-- The HELLO metadata dictionary fields the handler reads. -/
structure HelloMeta where
  mdEmpty : Bool := false
  physicalDest : Option InetAddress := none
  softwareVersion : Nat := 0
  probeToken : Nat := 0
deriving DecidableEq, Repr

/-- Inbound HELLO packet as seen by VL1::m_HELLO.  Byte-level parsing of the
identity, the legacy sent-to address and the metadata dictionary are not
under src/ (Identity.cpp, InetAddress.cpp, Dictionary.cpp), so the packet
carries their parse outcomes; the remaining fields are the header and
fixed-offset payload reads the handler performs itself. -/
structure HelloPacket where
  packetId : Nat
  source : Address
  headerMac : Nat
  hops : Nat
  size : Nat
  protoVersion : Nat
  versionMajor : Nat := 0
  versionMinor : Nat := 0
  versionRev : Nat := 0
  timestamp : Nat := 0
  identityParse : Option Identity := none
  sentToParse : Option InetAddress := none
  hasDict : Bool := false
  dictParse : Option HelloMeta := none
deriving DecidableEq, Repr

/-- Oracles for the cryptographic primitives used by packet authentication
(Salsa20/Poly1305, HMAC-SHA384: none of them under src/).  The theorems
quantify over the oracle, so they hold for any concrete cryptography. -/
structure CryptoOracle where
  packetMac : Nat → Nat → Cipher → List Nat → Nat
  helloHmacOk : PeerState → HelloPacket → Bool
  helloPolyMac : PeerState → HelloPacket → Nat

/-- The combined MAC acceptance condition of VL1::m_HELLO: HMAC-SHA384 for
protocol version 11 and newer (requiring room for the 48-byte tag), the
Poly1305 check against the 8-byte header MAC field for older versions
(requiring a nonempty encrypted section). -/
def helloMacPasses (o : CryptoOracle) (p : PeerState) (pkt : HelloPacket) : Bool :=
  if 11 ≤ pkt.protoVersion then
    decide (ZT_HMACSHA384_LEN ≤ pkt.size) && o.helloHmacOk p pkt
  else
    decide (ZT_PROTO_PACKET_ENCRYPTED_SECTION_START < pkt.size) &&
      (o.helloPolyMac p pkt == pkt.headerMac)

/-- Tail of VL1::m_HELLO after the MAC checks: parse the legacy sent-to
address, then (for v11+ with a metadata dictionary present) decrypt and
decode the dictionary and apply the physical-destination, software-version
and probe-token fields, and finally record the remote version.  The two
dictionary-failure paths return the peer (not null) after a trace, exactly
as the source does; the source's final path has no return statement (an
upstream slip), modelled as returning the peer. -/
def VL1.helloPostMac (st : NodeState) (pkt : HelloPacket) (id : Identity) :
    Option Address × NodeState × Effects :=
  match pkt.sentToParse with
  | none =>
      (none, st,
        { traces := [.incomingPacketDropped 0x707a9811 pkt.packetId .hello .invalidObject] })
  | some _ =>
      if 11 ≤ pkt.protoVersion ∧ pkt.hasDict then
        match pkt.dictParse with
        | none =>
            (some id.addr, st,
              { traces := [.incomingPacketDropped 0x707a9816 pkt.packetId .hello .invalidObject] })
        | some md =>
            let ver : Nat × Nat × Nat :=
              if ¬ md.mdEmpty ∧ md.softwareVersion ≠ 0 then
                ((md.softwareVersion >>> 48) % 65536, (md.softwareVersion >>> 32) % 65536,
                  (md.softwareVersion >>> 16) % 65536)
              else (pkt.versionMajor, pkt.versionMinor, pkt.versionRev)
            let st := st.updatePeer id.addr (fun p =>
              let p := if ¬ md.mdEmpty ∧ md.probeToken ≠ 0 then { p with probe := md.probeToken }
                else p
              { p with vProto := pkt.protoVersion, vMajor := ver.1, vMinor := ver.2.1,
                       vRevision := ver.2.2 })
            (some id.addr, st, {})
      else
        (some id.addr,
          st.updatePeer id.addr (fun p =>
            { p with vProto := pkt.protoVersion, vMajor := pkt.versionMajor,
                     vMinor := pkt.versionMinor, vRevision := pkt.versionRev }), {})

/-- MAC-check stage of VL1::m_HELLO (reached once a peer object exists whose
identity matches the packet).  Mirrors the two protocol-version branches and
their distinct trace code locations. -/
def VL1.helloCheckMac (o : CryptoOracle) (st : NodeState) (pkt : HelloPacket)
    (id : Identity) (p : PeerState) : Option Address × NodeState × Effects :=
  if 11 ≤ pkt.protoVersion then
    if pkt.size < ZT_HMACSHA384_LEN ∨ ¬ o.helloHmacOk p pkt then
      (none, st,
        { traces := [.incomingPacketDropped 0x707a9891 pkt.packetId .hello .macFailed] })
    else VL1.helloPostMac st pkt id
  else
    if ZT_PROTO_PACKET_ENCRYPTED_SECTION_START < pkt.size then
      if o.helloPolyMac p pkt ≠ pkt.headerMac then
        (none, st,
          { traces := [.incomingPacketDropped 0x11bfff82 pkt.packetId .nop .macFailed] })
      else VL1.helloPostMac st pkt id
    else
      (none, st,
        { traces := [.incomingPacketDropped 0x11bfff81 pkt.packetId .nop .macFailed] })

/-- VL1::m_HELLO: parse the identity, require its address to equal the
packet's source, resolve the peer (an existing peer must carry the same
identity; a new identity must pass proof-of-work validation and key
agreement, and is then registered in Topology), check the MAC, and process
the remainder.  Returns the accepted peer's address or none on a drop. -/
def VL1.m_HELLO (o : CryptoOracle) (st : NodeState) (pkt : HelloPacket) :
    Option Address × NodeState × Effects :=
  match pkt.identityParse with
  | none =>
      (none, st,
        { traces := [.incomingPacketDropped 0x707a9810 pkt.packetId .hello .invalidObject] })
  | some id =>
      if id.addr ≠ pkt.source then
        (none, st,
          { traces := [.incomingPacketDropped 0x707a9010 pkt.packetId .hello .macFailed] })
      else
        match st.peers.lookup id.addr with
        | some p =>
            if p.id ≠ id then
              (none, st,
                { traces := [.incomingPacketDropped 0x707a9891 pkt.packetId .hello .macFailed] })
            else VL1.helloCheckMac o st pkt id p
        | none =>
            if ¬ id.powValid then
              (none, st,
                { traces := [.incomingPacketDropped 0x707a9892 pkt.packetId .hello .invalidObject] })
            else if ¬ id.agreeOk then
              (none, st,
                { traces := [.incomingPacketDropped 0x707a9893 pkt.packetId .hello .unspecified] })
            else
              let p := PeerState.init id
              VL1.helloCheckMac o { st with peers := (id.addr, p) :: st.peers } pkt id p

/-- OK and ERROR packets as read by their handlers: the size and the in-re
correlation fields. -/
structure OkErrPacket where
  size : Nat
  inReVerb : Verb
  inRePacketId : Nat
  errorCode : Nat := 0
deriving DecidableEq, Repr

/-- VL1::m_ERROR: size check, then consult Expect with the in-re packet id;
an unexpected reply is dropped with a REPLY_NOT_EXPECTED trace (the source
passes VERB_OK in that trace), an expected one retires the Expect entry.
The per-error-code switch in the source has empty bodies. -/
def VL1.m_ERROR (st : NodeState) (now : Int) (pkt : OkErrPacket) :
    Bool × NodeState × Effects :=
  if pkt.size < ERROR_HEADER_SIZE then
    (false, st, { traces := [.incomingPacketDropped 0x3beb1947 0 .error .malformedPacket] })
  else
    let r := Expect.expecting st.expect pkt.inRePacketId now
    if r.1 then (true, { st with expect := r.2 }, {})
    else
      (false, st, { traces := [.incomingPacketDropped 0x4c1f1ff7 0 .ok .replyNotExpected] })

/-- VL1::m_OK: size check, then consult Expect with the in-re packet id; the
per-in-re-verb switch in the source has empty bodies. -/
def VL1.m_OK (st : NodeState) (now : Int) (pkt : OkErrPacket) :
    Bool × NodeState × Effects :=
  if pkt.size < OK_HEADER_SIZE then
    (false, st, { traces := [.incomingPacketDropped 0x4c1f1ff7 0 .ok .malformedPacket] })
  else
    let r := Expect.expecting st.expect pkt.inRePacketId now
    if r.1 then (true, { st with expect := r.2 }, {})
    else
      (false, st, { traces := [.incomingPacketDropped 0x4c1f1ff7 0 .ok .replyNotExpected] })

/-- Inbound ECHO request: header fields plus the packet bytes; `size` is the
assembled packet size (bytes beyond the list read as zero, as Buf is a fixed
16 KiB buffer). -/
structure EchoPacket where
  packetId : Nat
  hops : Nat
  size : Nat
  bytes : List Nat := []
deriving DecidableEq, Repr

/-- The request payload of an ECHO: the bytes following the header. -/
def echoRequestPayload (pkt : EchoPacket) : List Nat :=
  (pkt.bytes.drop PROTO_HEADER_SIZE).take (pkt.size - PROTO_HEADER_SIZE)

/-- VL1::m_ECHO: size check, echo rate gate, then an OK(ECHO) reply carrying
the request's packet id as in-re id and the request payload, built into a
fresh Buf; if the reply would overflow the buffer the request is dropped
with a malformed-packet trace (after the gate was already consumed).  A
denied gate traces RATE_LIMIT_EXCEEDED and sends nothing. -/
def VL1.m_ECHO (st : NodeState) (now : Int) (senderAddr : Address) (p : PeerState)
    (pkt : EchoPacket) : Bool × NodeState × Effects :=
  if pkt.size < PROTO_HEADER_SIZE then
    (false, st,
      { traces := [.incomingPacketDropped 0x14d70bb0 pkt.packetId .echo .malformedPacket] })
  else
    let gate := p.rateGateEchoRequest now
    if gate.1 then
      let st := st.updatePeer senderAddr (fun _ => gate.2)
      let outl := OK_ECHO_SIZE + (pkt.size - PROTO_HEADER_SIZE)
      if ZT_BUF_MEM_SIZE < outl then
        (false, st,
          { traces := [.incomingPacketDropped 0x14d70bb0 pkt.packetId .echo .malformedPacket] })
      else
        (true, st,
          { sends := [.okEcho senderAddr pkt.packetId (echoRequestPayload pkt)] })
    else
      (true, st,
        { traces := [.incomingPacketDropped 0x27878bc1 pkt.packetId .echo .rateLimitExceeded] })

/-- Inbound RENDEZVOUS packet: the named third-party address, port and
transport address carried after the fixed header, plus the outcome of
Endpoint::unmarshal for the addressLength = 255 form (Endpoint.cpp is not
under src/; a successful in-bounds parse of a non-nil endpoint is a some). -/
structure RendezvousPacket where
  packetId : Nat
  size : Nat
  peerAddress : Address
  port : Nat
  addressLength : Nat
  addressBytes : List Nat := []
  endpointParse : Option Endpoint := none
deriving DecidableEq, Repr

/-- VL1::m_RENDEZVOUS: everything is guarded by the sender being a root.
For a known named peer and a nonzero port, a 4- or 16-byte transport address
(or a v4/v6 endpoint in the 255 form) leads to a tryToContactAt call — which
the source makes on `peer`, the sending root, while the tryingNewPath trace
names the third-party peer `with` as the identity being tried. -/
def VL1.m_RENDEZVOUS (st : NodeState) (senderAddr : Address) (sender : PeerState)
    (pkt : RendezvousPacket) : Bool × Effects :=
  if st.roots.contains sender.id then
    if pkt.size < RENDEZVOUS_SIZE then
      (false,
        { traces := [.incomingPacketDropped 0x43e90ab3 pkt.packetId .rendezvous .malformedPacket] })
    else
      match st.peers.lookup pkt.peerAddress with
      | none => (true, {})
      | some w =>
          if pkt.port ≠ 0 then
            if pkt.addressLength = 4 ∨ pkt.addressLength = 16 then
              if RENDEZVOUS_SIZE + pkt.addressLength ≤ pkt.size then
                let atAddr := InetAddress.set pkt.addressBytes pkt.addressLength pkt.port
                (true,
                  { contacts := [(senderAddr, Endpoint.fromInet atAddr)],
                    traces := [.tryingNewPath 0x55a19aaa w.id.addr atAddr senderAddr] })
              else (true, {})
            else if pkt.addressLength = 255 then
              match pkt.endpointParse with
              | some ep =>
                  match ep with
                  | .inet4 _ | .inet6 _ =>
                      (true,
                        { contacts := [(senderAddr, ep)],
                          traces := [.tryingNewPath 0x55a19aab w.id.addr ep.inetAddr senderAddr] })
                  | _ => (true, {})
              | none => (true, {})
            else (true, {})
          else (true, {})
  else (true, {})

/-- Buf::rI8 at an absolute offset; bytes beyond the stored list read as 0
(Buf is a fixed pre-allocated 16 KiB buffer). -/
def Buf.rI8 (bytes : List Nat) (ptr : Nat) : Nat := bytes.getD ptr 0 % 256

/-- Buf::rI16 (big-endian 16-bit read). -/
def Buf.rI16 (bytes : List Nat) (ptr : Nat) : Nat :=
  (bytes.getD ptr 0 % 256) * 256 + bytes.getD (ptr + 1) 0 % 256

/-- Buf::rBnc: a raw byte run at an offset. -/
def Buf.rBnc (bytes : List Nat) (ptr len : Nat) : List Nat := (bytes.drop ptr).take len

/-- Buf::readOverflow: the cursor ran past the packet size. -/
def Buf.readOverflow (ptr size : Nat) : Bool := size < ptr

/-- Inbound PUSH_DIRECT_PATHS packet: the path-record count and the raw
packet bytes the record loop reads through a cursor. -/
structure PdpPacket where
  packetId : Nat
  size : Nat
  numPaths : Nat
  bytes : List Nat := []
deriving DecidableEq, Repr

/-- One pass of the VL1::m_PUSH_DIRECT_PATHS record loop.  The loop variables
`a` (current InetAddress) and `ep` persist across iterations as in the
source, where they are declared outside the loop.  Each parsed address emits
a tryingNewPath trace; the source then has only a TODO comment in place of
adding anything to the peer's try-queue, so no tryQueueAdds effect is ever
produced.  `epUnmarshal` abstracts Endpoint::unmarshal (not under src/). -/
def VL1.pdpIter (epUnmarshal : List Nat → Option Endpoint) (peerId : Address)
    (pkt : PdpPacket) :
    Nat → Nat → Option InetAddress → Option Endpoint → List TraceEvent →
    Bool × List TraceEvent
  | 0, _, _, _, acc => (true, acc)
  | Nat.succ k, ptr, a, ep, acc =>
      let ptr1 := ptr + 1
      let xas := Buf.rI16 pkt.bytes ptr1
      let ptr2 := ptr1 + 2 + xas
      let addrType := Buf.rI8 pkt.bytes ptr2
      let addrRecordLen := Buf.rI8 pkt.bytes (ptr2 + 1)
      let ptr3 := ptr2 + 2
      if addrRecordLen = 0 then
        (false, acc ++ [.incomingPacketDropped 0xaed00118 pkt.packetId .pushDirectPaths .malformedPacket])
      else if Buf.readOverflow ptr3 pkt.size then
        (false, acc ++ [.incomingPacketDropped 0xb450e10f pkt.packetId .pushDirectPaths .malformedPacket])
      else
        let parsed : Option (List Nat) × Nat × Nat × Nat :=
          match addrType with
          | 0 => (some (Buf.rBnc pkt.bytes ptr3 addrRecordLen), addrRecordLen, 0, ptr3 + addrRecordLen)
          | 4 => (some (Buf.rBnc pkt.bytes ptr3 4), 4, Buf.rI16 pkt.bytes (ptr3 + 4), ptr3 + 6)
          | 6 => (some (Buf.rBnc pkt.bytes ptr3 16), 16, Buf.rI16 pkt.bytes (ptr3 + 16), ptr3 + 18)
          | _ => (none, 0, 0, ptr3)
        let addrBytes := (parsed.1).getD []
        let addrLen := parsed.2.1
        let addrPort := parsed.2.2.1
        let ptr4 := parsed.2.2.2
        if Buf.readOverflow ptr4 pkt.size then
          (false, acc ++ [.incomingPacketDropped 0xb4d0f10f pkt.packetId .pushDirectPaths .malformedPacket])
        else
          if addrPort ≠ 0 then
            let a' := some (InetAddress.set addrBytes addrLen addrPort)
            let acc' := acc ++ [.tryingNewPath 0xa5ab1a43 peerId (InetAddress.set addrBytes addrLen addrPort) peerId]
            VL1.pdpIter epUnmarshal peerId pkt k (ptr4 + addrRecordLen) a' ep acc'
          else if addrLen ≠ 0 then
            match epUnmarshal addrBytes with
            | none =>
                (false, acc ++ [.incomingPacketDropped 0x00e0f00d pkt.packetId .pushDirectPaths .malformedPacket])
            | some e =>
                match e with
                | .inet4 ia | .inet6 ia =>
                    let acc' := acc ++ [.tryingNewPath 0xa5ab1a43 peerId ia peerId]
                    VL1.pdpIter epUnmarshal peerId pkt k (ptr4 + addrRecordLen) (some ia) (some e) acc'
                | _ =>
                    match a with
                    | some prev =>
                        let acc' := acc ++ [.tryingNewPath 0xa5ab1a43 peerId prev peerId]
                        VL1.pdpIter epUnmarshal peerId pkt k (ptr4 + addrRecordLen) a (some e) acc'
                    | none =>
                        VL1.pdpIter epUnmarshal peerId pkt k (ptr4 + addrRecordLen) a (some e) acc
          else
            match a with
            | some prev =>
                let acc' := acc ++ [.tryingNewPath 0xa5ab1a43 peerId prev peerId]
                VL1.pdpIter epUnmarshal peerId pkt k (ptr4 + addrRecordLen) a ep acc'
            | none =>
                VL1.pdpIter epUnmarshal peerId pkt k (ptr4 + addrRecordLen) a ep acc

/-- VL1::m_PUSH_DIRECT_PATHS: size check, then the record loop.  The state is
not touched and no try-queue addition is made (the source has only a TODO
where that would happen), so the result carries traces only. -/
def VL1.m_PUSH_DIRECT_PATHS (epUnmarshal : List Nat → Option Endpoint)
    (peerId : Address) (pkt : PdpPacket) : Bool × Effects :=
  if pkt.size < PUSH_DIRECT_PATHS_SIZE then
    (false,
      { traces := [.incomingPacketDropped 0x1bb1bbb1 pkt.packetId .pushDirectPaths .malformedPacket] })
  else
    let r := VL1.pdpIter epUnmarshal peerId pkt pkt.numPaths PUSH_DIRECT_PATHS_SIZE none none []
    (r.1, { traces := r.2 })

/-- The address-batching loop that fills one outgoing WHOIS packet: addresses
are appended while the write cursor stays below the output buffer size minus
one address length; the cursor starts right after the header and advances by
one wire address per append. -/
def VL1.whoisTakeAux : Nat → List Address → List Address × List Address
  | _, [] => ([], [])
  | p, a :: rest =>
      if p < (ZT_DEFAULT_UDP_MTU - ZT_PROTO_MIN_PACKET_LENGTH) - ZT_ADDRESS_LENGTH then
        let pr := VL1.whoisTakeAux (p + ZT_ADDRESS_LENGTH) rest
        (a :: pr.1, pr.2)
      else ([], a :: rest)

/-- The outer packet loop of m_sendPendingWhois, fueled by the list length:
each round starts a fresh WHOIS packet (cursor at the header size) and fills
it via the batching loop. -/
def VL1.whoisBatchesAux : Nat → List Address → List (List Address)
  | 0, _ => []
  | _, [] => []
  | Nat.succ fuel, a :: rest =>
      let pr := VL1.whoisTakeAux (PROTO_HEADER_SIZE + ZT_ADDRESS_LENGTH) rest
      (a :: pr.1) :: VL1.whoisBatchesAux fuel pr.2

/-- Addresses grouped into outgoing WHOIS packets. -/
def VL1.whoisBatches (l : List Address) : List (List Address) :=
  VL1.whoisBatchesAux l.length l

/-- Emit the batched WHOIS packets: each takes a fresh packet id from the
root key's message counter (SymmetricKey::nextMessage, modelled as the
counter value; SymmetricKey.hpp is not under src/), registers it with
Expect::sending and is sent to the root. -/
def VL1.sendWhoisBatches (rootAddr : Address) (now : Int) :
    Nat → List (Nat × Int) → List (List Address) →
    List SendEvent × List (Nat × Int) × Nat
  | kc, expect, [] => ([], expect, kc)
  | kc, expect, b :: rest =>
      let pid := kc
      let expect1 := Expect.sending expect pid now
      let r := VL1.sendWhoisBatches rootAddr now (kc + 1) expect1 rest
      (SendEvent.whoisRequest rootAddr pid b :: r.1, r.2)

/-- VL1::m_sendPendingWhois: resolve the current root and a live path to it
(returning silently when either is missing), collect every queued address
whose retry gate has elapsed while stamping its last-retry time, and send
the batched WHOIS packets to the root. -/
def VL1.m_sendPendingWhois (st : NodeState) (now : Int) : NodeState × Effects :=
  match st.rootPeers.head? with
  | none => (st, {})
  | some rootAddr =>
      match st.peers.lookup rootAddr with
      | none => (st, {})
      | some root =>
          match root.curPath with
          | none => (st, {})
          | some _ =>
              let toSend := (st.whoisQueue.filter
                (fun e => decide (ZT_WHOIS_RETRY_DELAY ≤ now - e.2.lastRetry))).map (·.1)
              let queue := st.whoisQueue.map (fun e =>
                if ZT_WHOIS_RETRY_DELAY ≤ now - e.2.lastRetry then
                  (e.1, { e.2 with lastRetry := now, retries := e.2.retries + 1 })
                else e)
              let st := { st with whoisQueue := queue }
              if toSend.isEmpty then (st, {})
              else
                let r := VL1.sendWhoisBatches rootAddr now st.keyCounter st.expect
                  (VL1.whoisBatches toSend)
                ({ st with expect := r.2.1, keyCounter := r.2.2 }, { sends := r.1 })

/-- The WHOIS queue entry for a source address after stashing an assembled
ciphertext: the next ring slot (waitingPacketCount modulo the ring capacity)
receives the packet and the count advances; retry metadata is untouched. -/
def stashEntry (st : NodeState) (source : Address) (pktSize : Nat)
    (body : List Nat) : WhoisQueueItem :=
  let wq := (st.whoisQueue.lookup source).getD {}
  { wq with waitingPacketCount := wq.waitingPacketCount + 1,
            waiting := wq.waiting.set
              (wq.waitingPacketCount % ZT_VL1_MAX_WHOIS_WAITING_PACKETS)
              (some (pktSize, body)) }

/-- Node state after stashing an assembled ciphertext in the WHOIS queue. -/
def stashState (st : NodeState) (source : Address) (pktSize : Nat)
    (body : List Nat) : NodeState :=
  { st with whoisQueue := alSet st.whoisQueue source (stashEntry st source pktSize body) }

/-- The else branch of onRemotePacket for a packet that could not be
authenticated: when the assembled packet is at least a full packet, stash it
in the WHOIS queue ring under the source address and, if the per-address
retry gate permits (ring insertion does not touch the entry's last-retry
time, so the gate reads the same value before and after the stash), send the
pending WHOIS requests. -/
def VL1.whoisStash (st : NodeState) (now : Int) (source : Address)
    (pktSize : Nat) (body : List Nat) : NodeState × Effects :=
  if pktSize < ZT_PROTO_MIN_PACKET_LENGTH then (st, {})
  else
    let st1 := stashState st source pktSize body
    if ZT_WHOIS_RETRY_DELAY ≤ now - ((st.whoisQueue.lookup source).getD {}).lastRetry then
      VL1.m_sendPendingWhois st1 now
    else (st1, {})

/-- A fully assembled inbound packet addressed to this node, as it stands
after fragment reassembly (onRemotePacket lines 197 onward): the header
fields, the assembled size and body, plus the packet's parse as a HELLO for
the plaintext-HELLO branch (whose byte-level parsing is not under src/). -/
structure AssembledPacket where
  packetId : Nat
  source : Address
  hops : Nat
  cipher : Cipher
  verbRaw : Verb
  headerMac : Nat
  size : Nat
  body : List Nat := []
  helloView : HelloPacket
deriving Repr

/-- The plaintext-HELLO guard of onRemotePacket line 214: cipher is
POLY1305_NONE or NONE and the (not yet decrypted) verb field reads HELLO. -/
def plaintextHelloCase (pkt : AssembledPacket) : Prop :=
  (pkt.cipher = .poly1305None ∨ pkt.cipher = .cnone) ∧ pkt.verbRaw = .hello

instance (pkt : AssembledPacket) : Decidable (plaintextHelloCase pkt) := by
  unfold plaintextHelloCase; infer_instance

/-- onRemotePacket from the point where a packet is fully assembled
(VL1.cpp lines 197-389).  Plaintext HELLOs go to m_HELLO (a successful one
is followed by Peer::received, modelled as the last-receive update).  For
other packets the known-peer cipher switch recomputes the Poly1305 MAC over
the assembled packet and compares it with the 8-byte header MAC field,
dropping with a MAC_FAILED trace on mismatch; the NONE and AES_GMAC_SIV
suites are TODOs in the source and authenticate nothing.  An authenticated
packet is then processed by a verb dispatch that the source disables with
`#if 0`, so nothing further happens; an unauthenticated one falls through to
the WHOIS stash. -/
def VL1.processAssembled (o : CryptoOracle) (st : NodeState) (now : Int)
    (pkt : AssembledPacket) : NodeState × Effects :=
  if plaintextHelloCase pkt then
    if pkt.size < ZT_PROTO_MIN_PACKET_LENGTH then (st, {})
    else
      let r := VL1.m_HELLO o st pkt.helloView
      match r.1 with
      | some addr =>
          ((r.2.1).updatePeer addr (fun p => { p with lastReceive := now }), r.2.2)
      | none => (r.2.1, r.2.2)
  else
    match st.peers.lookup pkt.source with
    | some p =>
        match pkt.cipher with
        | .poly1305None | .poly1305Salsa2012 =>
            if pkt.size < ZT_PROTO_MIN_PACKET_LENGTH then (st, {})
            else if o.packetMac p.identityKey pkt.packetId pkt.cipher pkt.body ≠ pkt.headerMac then
              (st,
                { traces := [.incomingPacketDropped 0xcc89c812 pkt.packetId .nop .macFailed] })
            else (st, {})
        | .cnone | .aesGmacSiv =>
            VL1.whoisStash st now pkt.source pkt.size pkt.body
    | none =>
        VL1.whoisStash st now pkt.source pkt.size pkt.body

/-- Whether a trace event is an incoming-packet drop with reason MAC_FAILED. -/
def TraceEvent.isMacFailedDrop : TraceEvent → Bool
  | .incomingPacketDropped _ _ _ .macFailed => true
  | _ => false

/-- The root that m_sendPendingWhois would send through: the head of the
ranked root list, provided it has a peer entry with a live current path. -/
def NodeState.currentRoot (st : NodeState) : Option Address :=
  match st.rootPeers.head? with
  | none => none
  | some ra =>
      match st.peers.lookup ra with
      | none => none
      | some r => if r.curPath.isSome then some ra else none

/-- Whether a send event is a WHOIS request to the given root that queries
the given address. -/
def SendEvent.asksWhois (root : Address) (a : Address) : SendEvent → Bool
  | .whoisRequest ra _ qs => ra == root && qs.contains a
  | _ => false

/-- Concrete identity fixture. -/
def idA : Identity := ⟨⟨0x1122334455⟩, 1, true, true⟩

/-- Concrete identity fixture. -/
def idB : Identity := ⟨⟨0x99aabbccdd⟩, 2, true, true⟩

/-- Concrete root identity fixture. -/
def idRoot : Identity := ⟨⟨0x0011223344⟩, 3, true, true⟩

/-- Concrete identity whose proof-of-work validation fails. -/
def idBadPow : Identity := ⟨⟨77⟩, 9, false, true⟩

/-- Fresh peer for idA. -/
def peerA : PeerState := PeerState.init idA

/-- Fresh peer for idB. -/
def peerB : PeerState := PeerState.init idB

/-- Fresh peer for the root identity. -/
def peerRoot : PeerState := PeerState.init idRoot

/-- Root peer owning one alive path, so Peer::path(now) returns it. -/
def peerRootAlive : PeerState := { PeerState.init idRoot with alivePathCount := 1, paths := [0] }

/-- Empty node state. -/
def st0 : NodeState := {}

/-- Node state knowing only peer A. -/
def stOne : NodeState := { peers := [(idA.addr, peerA)] }

/-- Node state where idRoot is a root with peers A and B known. -/
def stRoots : NodeState :=
  { peers := [(idRoot.addr, peerRoot), (idB.addr, peerB), (idA.addr, peerA)],
    roots := [idRoot], rootPeers := [idRoot.addr] }

/-- Node state with a reachable root and no entry for peer B. -/
def stRootReach : NodeState :=
  { peers := [(idRoot.addr, peerRootAlive)], roots := [idRoot], rootPeers := [idRoot.addr] }

/-- Oracle whose MACs never match a nonzero field and whose HMAC compare
fails: a stand-in for a tampered packet. -/
def oracleFail : CryptoOracle := ⟨fun _ _ _ _ => 0, fun _ _ => false, fun _ _ => 0⟩

/-- Oracle that accepts: the HMAC compare passes and the Poly1305 tag always
equals the packet's MAC field. -/
def oraclePass : CryptoOracle := ⟨fun _ _ _ _ => 0, fun _ _ => true, fun _ pkt => pkt.headerMac⟩

/-- Endpoint unmarshal stand-in that always fails (unused on v4/v6 record
paths). -/
def epNone : List Nat → Option Endpoint := fun _ => none

/-- Placeholder HELLO view for packets that are not plaintext HELLOs. -/
def dummyHello : HelloPacket :=
  { packetId := 0, source := ⟨0⟩, headerMac := 0, hops := 0, size := 0, protoVersion := 0 }

/-- Node state expecting a reply to packet id 42 until time 100. -/
def stExpect : NodeState := { expect := [(42, 100)] }

/-- An ERROR/OK packet replying to packet id 42. -/
def okErrPkt : OkErrPacket := { size := 40, inReVerb := .whois, inRePacketId := 42 }

/-- A second ERROR/OK packet replying to the same packet id 42. -/
def okErrPkt2 : OkErrPacket := { size := 38, inReVerb := .hello, inRePacketId := 42 }

/-- Small ECHO request with a two-byte payload. -/
def echoSmall : EchoPacket :=
  { packetId := 4, hops := 0, size := 30, bytes := List.replicate 28 0 ++ [7, 8] }

/-- An assembled ECHO request of 16380 bytes: the OK(ECHO) reply would need
16389 bytes, more than a 16 KiB Buf can hold. -/
def echoBig : EchoPacket := { packetId := 5, hops := 0, size := 16380 }

/-- The transport address 203.0.113.10:793 as parsed from 4 raw bytes. -/
def rdvAt : InetAddress := InetAddress.set [203, 0, 113, 10] 4 793

/-- RENDEZVOUS naming peer B at 203.0.113.10:793 (4-byte address form). -/
def rdvPkt : RendezvousPacket :=
  { packetId := 9, size := 40, peerAddress := idB.addr, port := 793,
    addressLength := 4, addressBytes := [203, 0, 113, 10] }

/-- A well-formed PUSH_DIRECT_PATHS with one v4 record for 203.0.113.10:793:
after the 30-byte fixed part come flags (1), extended-attributes length (2,
zero), address type 4, record length 6, the 4 address bytes and the port. -/
def pdpPkt : PdpPacket :=
  { packetId := 11, size := 41, numPaths := 1,
    bytes := List.replicate 30 0 ++ [0, 0, 0, 4, 6, 203, 0, 113, 10, 3, 25] }

/-- Non-HELLO assembled packet from peer A under POLY1305_SALSA2012 whose
MAC field (1) will not match a recomputed tag of 0. -/
def pktC1 : AssembledPacket :=
  { packetId := 7, source := idA.addr, hops := 0, cipher := .poly1305Salsa2012,
    verbRaw := .ok, headerMac := 1, size := 28, helloView := dummyHello }

/-- HELLO view from peer A, protocol 10 (Poly1305 MAC path), MAC field 5. -/
def hvA : HelloPacket :=
  { packetId := 8, source := idA.addr, headerMac := 5, hops := 0, size := 28,
    protoVersion := 10, identityParse := some idA }

/-- Plaintext HELLO assembled packet from peer A carrying hvA. -/
def pktC1h : AssembledPacket :=
  { packetId := 8, source := idA.addr, hops := 0, cipher := .poly1305None,
    verbRaw := .hello, headerMac := 5, size := 28, helloView := hvA }

/-- HELLO whose identity fails to parse. -/
def helloBad1 : HelloPacket :=
  { packetId := 1, source := idA.addr, headerMac := 0, hops := 0, size := 50, protoVersion := 11 }

/-- HELLO whose parsed identity address differs from the header source. -/
def helloBad2 : HelloPacket :=
  { helloBad1 with packetId := 2, identityParse := some idA, source := idB.addr }

/-- HELLO carrying a new identity that fails proof-of-work validation. -/
def helloBad3 : HelloPacket :=
  { packetId := 3, source := idBadPow.addr, headerMac := 0, hops := 0, size := 50,
    protoVersion := 11, identityParse := some idBadPow }

/-- HELLO carrying a valid previously-unknown identity (protocol 11), whose
HMAC check fails under the failing oracle. -/
def helloNew : HelloPacket :=
  { packetId := 6, source := idA.addr, headerMac := 0, hops := 0, size := 100,
    protoVersion := 11, identityParse := some idA }

/-- Assembled non-HELLO packet from peer B, used where B is unknown to the
receiving node so the ciphertext must be queued for WHOIS. -/
def pktC8 : AssembledPacket :=
  { packetId := 13, source := idB.addr, hops := 0, cipher := .poly1305Salsa2012,
    verbRaw := .ok, headerMac := 0, size := 28, body := [1, 2, 3], helloView := dummyHello }

/-- First colliding tuple: local socket 0, remote 0.0.0.0 port 1. -/
def pathCexR1 : InetAddress := .v4 0 1

/-- Second colliding tuple: local socket 65536, remote 0.0.0.0 port 0; its
composite key equals that of the first tuple. -/
def pathCexR2 : InetAddress := .v4 0 0

end ZeroTier

namespace ZeroTier

/-- C4 amended: `Topology.path` is canonicalizing on the composite 64-bit
key: a second call whose composite key equals the first call's key — in
particular a call with the same (l,r) pair — returns the same Path instance
as the first call. -/
theorem zt_c4_path_canonical (st : TopoPaths) (l l' : Nat) (r r' : InetAddress)
    (hk : s_getPathKey l' r' = s_getPathKey l r) :
    (Topology.path (Topology.path st l r).2 l' r').1 = (Topology.path st l r).1 := by
  unfold Topology.path
  rw [hk]
  cases h : st.entries.lookup (s_getPathKey l r) with
  | some pid => simp [h]
  | none => simp [h, List.lookup]

/-- C4 witness: two calls with the same (l,r) return the same Path instance
on a concrete state. -/
theorem zt_c4_path_canonical_witness :
    (Topology.path (Topology.path ⟨[], 0⟩ 3 (.v4 7 9)).2 3 (.v4 7 9)).1 =
      (Topology.path (⟨[], 0⟩ : TopoPaths) 3 (.v4 7 9)).1 :=
  zt_c4_path_canonical ⟨[], 0⟩ 3 3 (.v4 7 9) (.v4 7 9) rfl

/-- C4 counterexample: the tuples (0, 0.0.0.0:1) and (65536, 0.0.0.0:0) are
distinct but have the same composite key (65536), and the two calls return
the same Path instance — the map is keyed by the 64-bit key alone, not by
the full (l,r) tuple as the claim states. -/
theorem zt_c4_cex :
    ((0 : Nat), pathCexR1) ≠ ((65536 : Nat), pathCexR2) ∧
    s_getPathKey 0 pathCexR1 = s_getPathKey 65536 pathCexR2 ∧
    (Topology.path (Topology.path ⟨[], 0⟩ 0 pathCexR1).2 65536 pathCexR2).1 =
      (Topology.path (⟨[], 0⟩ : TopoPaths) 0 pathCexR1).1 := by
  decide

theorem lookup_cons_pair {α β : Type} [DecidableEq α] (k a : α) (b : β) (es : List (α × β)) :
    List.lookup k ((a, b) :: es) = if k = a then some b else List.lookup k es := by
  by_cases h : k = a
  · simp [List.lookup, h]
  · have hb : (k == a) = false := beq_eq_false_iff_ne.mpr h
    simp [List.lookup, hb, h]

theorem lookup_filter_bne {β : Type} (l : List (Nat × β)) (k : Nat) :
    (l.filter (fun e => e.1 != k)).lookup k = none := by
  induction l with
  | nil => rfl
  | cons e es ih =>
      by_cases h : e.1 = k
      · have h1 : (e.1 != k) = false := by simp [h]
        rw [List.filter_cons, h1]
        simpa using ih
      · have h1 : (e.1 != k) = true := bne_iff_ne.mpr h
        have h2 : (k == e.1) = false := beq_eq_false_iff_ne.mpr (Ne.symm h)
        rw [List.filter_cons, h1]
        simpa [List.lookup, h2] using ih

/-- After a successful `expecting`, the table is the original one with the
entry for the packet id retired. -/
theorem expecting_true_snd (tbl : List (Nat × Int)) (pid : Nat) (now : Int)
    (h : (Expect.expecting tbl pid now).1 = true) :
    (Expect.expecting tbl pid now).2 = tbl.filter (fun e => e.1 != pid) := by
  unfold Expect.expecting at h ⊢
  cases hl : tbl.lookup pid with
  | none => rw [hl] at h; simp at h
  | some d =>
      rw [hl] at h
      by_cases hd : now ≤ d
      · simp [hd]
      · simp [hd] at h

/-- A retired packet id is no longer expected. -/
theorem expecting_after_filter (tbl : List (Nat × Int)) (pid : Nat) (now2 : Int) :
    Expect.expecting (tbl.filter (fun e => e.1 != pid)) pid now2 =
      (false, tbl.filter (fun e => e.1 != pid)) := by
  unfold Expect.expecting
  rw [lookup_filter_bne]

/-- C3: an OK or ERROR whose in-re packet id is not currently expected is
dropped with a REPLY_NOT_EXPECTED trace and the handler returns false; an
expected one is honored and its Expect entry retired, so a second OK or
ERROR carrying the same in-re packet id is dropped with REPLY_NOT_EXPECTED. -/
theorem zt_c3_expect_correlation (st : NodeState) (now now2 : Int) (pkt pkt2 : OkErrPacket)
    (hsz : ERROR_HEADER_SIZE ≤ pkt.size) (hsz2 : ERROR_HEADER_SIZE ≤ pkt2.size)
    (hid : pkt2.inRePacketId = pkt.inRePacketId) :
    ((Expect.expecting st.expect pkt.inRePacketId now).1 = false →
        VL1.m_ERROR st now pkt = (false, st,
          { traces := [.incomingPacketDropped 0x4c1f1ff7 0 .ok .replyNotExpected] }) ∧
        VL1.m_OK st now pkt = (false, st,
          { traces := [.incomingPacketDropped 0x4c1f1ff7 0 .ok .replyNotExpected] })) ∧
    ((Expect.expecting st.expect pkt.inRePacketId now).1 = true →
        VL1.m_ERROR st now pkt =
          (true, { st with expect := (Expect.expecting st.expect pkt.inRePacketId now).2 }, {}) ∧
        VL1.m_OK st now pkt =
          (true, { st with expect := (Expect.expecting st.expect pkt.inRePacketId now).2 }, {}) ∧
        VL1.m_ERROR { st with expect := (Expect.expecting st.expect pkt.inRePacketId now).2 }
            now2 pkt2 =
          (false, { st with expect := (Expect.expecting st.expect pkt.inRePacketId now).2 },
            { traces := [.incomingPacketDropped 0x4c1f1ff7 0 .ok .replyNotExpected] }) ∧
        VL1.m_OK { st with expect := (Expect.expecting st.expect pkt.inRePacketId now).2 }
            now2 pkt2 =
          (false, { st with expect := (Expect.expecting st.expect pkt.inRePacketId now).2 },
            { traces := [.incomingPacketDropped 0x4c1f1ff7 0 .ok .replyNotExpected] })) := by
  have hszE : ¬ pkt.size < ERROR_HEADER_SIZE := Nat.not_lt.mpr hsz
  have hszO : ¬ pkt.size < OK_HEADER_SIZE := by
    unfold OK_HEADER_SIZE; unfold ERROR_HEADER_SIZE at hsz; omega
  have hszE2 : ¬ pkt2.size < ERROR_HEADER_SIZE := Nat.not_lt.mpr hsz2
  have hszO2 : ¬ pkt2.size < OK_HEADER_SIZE := by
    unfold OK_HEADER_SIZE; unfold ERROR_HEADER_SIZE at hsz2; omega
  constructor
  · intro h
    constructor
    · simp [VL1.m_ERROR, hszE, h]
    · simp [VL1.m_OK, hszO, h]
  · intro h
    have hret := expecting_true_snd st.expect pkt.inRePacketId now h
    have hafter := expecting_after_filter st.expect pkt.inRePacketId now2
    refine ⟨?_, ?_, ?_, ?_⟩
    · simp [VL1.m_ERROR, hszE, h]
    · simp [VL1.m_OK, hszO, h]
    · simp [VL1.m_ERROR, hszE2, hid, hret, hafter]
    · simp [VL1.m_OK, hszO2, hid, hret, hafter]

/-- C3 witness: with packet id 42 expected until time 100, an ERROR at time
50 is honored and retires the entry, after which a second ERROR and an OK
for id 42 are dropped with REPLY_NOT_EXPECTED; with an empty Expect table
both handlers drop immediately. -/
theorem zt_c3_expect_correlation_witness :
    VL1.m_ERROR stExpect 50 okErrPkt =
      (true, { stExpect with expect := (Expect.expecting stExpect.expect okErrPkt.inRePacketId 50).2 }, {}) ∧
    VL1.m_ERROR { stExpect with expect := (Expect.expecting stExpect.expect okErrPkt.inRePacketId 50).2 }
        60 okErrPkt2 =
      (false, { stExpect with expect := (Expect.expecting stExpect.expect okErrPkt.inRePacketId 50).2 },
        { traces := [.incomingPacketDropped 0x4c1f1ff7 0 .ok .replyNotExpected] }) ∧
    VL1.m_OK st0 50 okErrPkt = (false, st0,
      { traces := [.incomingPacketDropped 0x4c1f1ff7 0 .ok .replyNotExpected] }) := by
  have h2 := (zt_c3_expect_correlation stExpect 50 60 okErrPkt okErrPkt2
    (by decide) (by decide) rfl).2 (by decide)
  have h1 := (zt_c3_expect_correlation st0 50 60 okErrPkt okErrPkt2
    (by decide) (by decide) rfl).1 (by decide)
  exact ⟨h2.1, h2.2.2.1, h1.2⟩

/-- C9: each inbound rate gate admits exactly when at least its rate-limit
interval has elapsed since the stored last-accepted timestamp; the timestamp
is advanced to now exactly on admission, so a denied request leaves the
state (and hence the blocking window) unchanged. -/
theorem zt_c9_rate_gates (p : PeerState) (now : Int) :
    ((p.rateGateInboundWhoisRequest now).1 = true ↔
        ZT_PEER_WHOIS_RATE_LIMIT ≤ now - p.lastWhoisRequestReceived) ∧
    ((p.rateGateInboundWhoisRequest now).1 = true →
        (p.rateGateInboundWhoisRequest now).2 = { p with lastWhoisRequestReceived := now }) ∧
    ((p.rateGateInboundWhoisRequest now).1 = false →
        (p.rateGateInboundWhoisRequest now).2 = p) ∧
    ((p.rateGateEchoRequest now).1 = true ↔
        ZT_PEER_GENERAL_RATE_LIMIT ≤ now - p.lastEchoRequestReceived) ∧
    ((p.rateGateEchoRequest now).1 = true →
        (p.rateGateEchoRequest now).2 = { p with lastEchoRequestReceived := now }) ∧
    ((p.rateGateEchoRequest now).1 = false →
        (p.rateGateEchoRequest now).2 = p) := by
  unfold PeerState.rateGateInboundWhoisRequest PeerState.rateGateEchoRequest
  refine ⟨?_, ?_, ?_, ?_, ?_, ?_⟩ <;> split <;> simp_all

/-- C9 witness: the WHOIS gate admits at a 1000 ms gap on a fresh peer and
stamps the time; the ECHO gate denies at a negative gap and leaves the peer
unchanged. -/
theorem zt_c9_rate_gates_witness :
    (peerA.rateGateInboundWhoisRequest 1000).2 =
      { peerA with lastWhoisRequestReceived := 1000 } ∧
    (peerA.rateGateEchoRequest (-1)).2 = peerA :=
  ⟨(zt_c9_rate_gates peerA 1000).2.1 (by decide),
   (zt_c9_rate_gates peerA (-1)).2.2.2.2.2 (by decide)⟩

/-- C10: Peer::latency computes `lcnt / ltot` — the count of positive
per-path latencies divided by their sum — instead of the mean the claim (and
the function's own doc comment) describe.  With two alive paths of latencies
10 and 20 the source returns 2 / 30 = 0 while the claimed mean is 15; the
-1 cases agree. -/
theorem zt_c10_latency_bug :
    PeerState.latency [10, 20] = 0 ∧
    latencyPerClaim [10, 20] = 15 ∧
    PeerState.latency [10, 20] ≠ latencyPerClaim [10, 20] ∧
    PeerState.latency [] = -1 ∧ latencyPerClaim [] = -1 ∧
    PeerState.latency [-1, -1] = -1 ∧ latencyPerClaim [-1, -1] = -1 := by
  decide

/-- C7 amended: when the echo rate gate permits and the OK(ECHO) reply fits
within the 16 KiB output buffer, exactly one OK(ECHO) is sent, carrying the
request's packet id as in-re id and the request's payload bytes; when the
gate denies, the request is dropped with a RATE_LIMIT_EXCEEDED trace and
nothing is sent. -/
theorem zt_c7_echo_reply (st : NodeState) (now : Int) (senderAddr : Address)
    (p : PeerState) (pkt : EchoPacket) (hsz : PROTO_HEADER_SIZE ≤ pkt.size) :
    (ZT_PEER_GENERAL_RATE_LIMIT ≤ now - p.lastEchoRequestReceived →
      OK_ECHO_SIZE + (pkt.size - PROTO_HEADER_SIZE) ≤ ZT_BUF_MEM_SIZE →
      VL1.m_ECHO st now senderAddr p pkt =
        (true,
          st.updatePeer senderAddr (fun _ => { p with lastEchoRequestReceived := now }),
          { sends := [.okEcho senderAddr pkt.packetId (echoRequestPayload pkt)] })) ∧
    (¬ ZT_PEER_GENERAL_RATE_LIMIT ≤ now - p.lastEchoRequestReceived →
      VL1.m_ECHO st now senderAddr p pkt =
        (true, st,
          { traces := [.incomingPacketDropped 0x27878bc1 pkt.packetId .echo .rateLimitExceeded] })) := by
  have hsz1 : ¬ pkt.size < PROTO_HEADER_SIZE := Nat.not_lt.mpr hsz
  constructor
  · intro hg hfit
    simp [VL1.m_ECHO, PeerState.rateGateEchoRequest, hsz1, hg, Nat.not_lt.mpr hfit]
  · intro hg
    simp [VL1.m_ECHO, PeerState.rateGateEchoRequest, hsz1, hg]

/-- C7 witness: on a concrete node, peer A's small ECHO at time 1000000 is
answered by one OK(ECHO) echoing its payload, and the same request at time
-5 (gate closed) is dropped with a RATE_LIMIT_EXCEEDED trace. -/
theorem zt_c7_echo_reply_witness :
    VL1.m_ECHO stOne 1000000 idA.addr peerA echoSmall =
      (true,
        stOne.updatePeer idA.addr (fun _ => { peerA with lastEchoRequestReceived := 1000000 }),
        { sends := [.okEcho idA.addr echoSmall.packetId (echoRequestPayload echoSmall)] }) ∧
    VL1.m_ECHO stOne (-5) idA.addr peerA echoSmall =
      (true, stOne,
        { traces := [.incomingPacketDropped 0x27878bc1 echoSmall.packetId .echo .rateLimitExceeded] }) :=
  ⟨(zt_c7_echo_reply stOne 1000000 idA.addr peerA echoSmall (by decide)).1 (by decide) (by decide),
   (zt_c7_echo_reply stOne (-5) idA.addr peerA echoSmall (by decide)).2 (by decide)⟩

/-- C7 counterexample: a 16380-byte assembled ECHO whose rate gate permits
is nevertheless answered with nothing — the reply would overflow the 16 KiB
Buf, so the handler consumes the gate, traces a drop and returns false,
refuting the unconditional "sends exactly one OK(ECHO) reply". -/
theorem zt_c7_cex :
    ZT_PEER_GENERAL_RATE_LIMIT ≤ (1000000 : Int) - peerA.lastEchoRequestReceived ∧
    PROTO_HEADER_SIZE ≤ echoBig.size ∧
    (VL1.m_ECHO stOne 1000000 idA.addr peerA echoBig).1 = false ∧
    (VL1.m_ECHO stOne 1000000 idA.addr peerA echoBig).2.2.sends = [] := by
  decide

/-- C5: on a concrete RENDEZVOUS from the root naming peer B at
203.0.113.10:793, the source invokes tryToContactAt on the sending root peer
object — not on the named third-party peer B — while its own tryingNewPath
trace names B as the identity being tried; a non-root sender produces no
effect at all. -/
theorem zt_c5_rendezvous_bug :
    (VL1.m_RENDEZVOUS stRoots idRoot.addr peerRoot rdvPkt).2.contacts =
      [(idRoot.addr, Endpoint.fromInet rdvAt)] ∧
    idRoot.addr ≠ idB.addr ∧
    (VL1.m_RENDEZVOUS stRoots idRoot.addr peerRoot rdvPkt).2.traces =
      [.tryingNewPath 0x55a19aaa idB.addr rdvAt idRoot.addr] ∧
    VL1.m_RENDEZVOUS stRoots idA.addr peerA rdvPkt = (true, {}) := by
  decide

/-- When the HELLO MAC acceptance condition fails, the MAC-check stage drops
with a single MAC_FAILED trace and leaves its input state untouched,
whichever protocol-version branch applies. -/
theorem helloCheckMac_macFail (o : CryptoOracle) (s : NodeState) (pkt : HelloPacket)
    (id : Identity) (p : PeerState) (hmac : helloMacPasses o p pkt = false) :
    ∃ tr, VL1.helloCheckMac o s pkt id p = (none, s, { traces := [tr] }) ∧
      tr.isMacFailedDrop = true := by
  unfold helloMacPasses at hmac
  by_cases hv11 : 11 ≤ pkt.protoVersion
  · rw [if_pos hv11] at hmac
    have hcond : pkt.size < ZT_HMACSHA384_LEN ∨ ¬ o.helloHmacOk p pkt = true := by
      rcases Bool.and_eq_false_iff.mp hmac with h | h
      · left
        have := of_decide_eq_false h
        omega
      · right; simp [h]
    refine ⟨TraceEvent.incomingPacketDropped 0x707a9891 pkt.packetId .hello .macFailed, ?_, rfl⟩
    unfold VL1.helloCheckMac; rw [if_pos hv11, if_pos hcond]
  · rw [if_neg hv11] at hmac
    by_cases h27 : ZT_PROTO_PACKET_ENCRYPTED_SECTION_START < pkt.size
    · have hpm : o.helloPolyMac p pkt ≠ pkt.headerMac := by
        rcases Bool.and_eq_false_iff.mp hmac with h | h
        · exact absurd h27 (of_decide_eq_false h)
        · simpa using h
      refine ⟨TraceEvent.incomingPacketDropped 0x11bfff82 pkt.packetId .nop .macFailed, ?_, rfl⟩
      unfold VL1.helloCheckMac; rw [if_neg hv11, if_pos h27, if_pos hpm]
    · refine ⟨TraceEvent.incomingPacketDropped 0x11bfff81 pkt.packetId .nop .macFailed, ?_, rfl⟩
      unfold VL1.helloCheckMac; rw [if_neg hv11, if_neg h27]

/-- C1: an assembled inbound packet from a known peer under a Poly1305
cipher suite whose recomputed MAC does not equal the 8-byte header MAC field
is dropped with exactly one MAC_FAILED trace, no send of any kind, no
contact attempt and no state change.  The first part covers the normal AEAD
path (trace location 0xcc89c812); the second covers a plaintext HELLO from a
known peer whose identity matches, where the HELLO MAC check fails. -/
theorem zt_c1_mac_tamper (o : CryptoOracle) (st : NodeState) (now : Int)
    (pkt : AssembledPacket) (hsz : ZT_PROTO_MIN_PACKET_LENGTH ≤ pkt.size) :
    (∀ p, ¬ plaintextHelloCase pkt →
      st.peers.lookup pkt.source = some p →
      (pkt.cipher = .poly1305None ∨ pkt.cipher = .poly1305Salsa2012) →
      o.packetMac p.identityKey pkt.packetId pkt.cipher pkt.body ≠ pkt.headerMac →
      VL1.processAssembled o st now pkt =
        (st, { traces := [.incomingPacketDropped 0xcc89c812 pkt.packetId .nop .macFailed] })) ∧
    (∀ id q, plaintextHelloCase pkt →
      pkt.helloView.identityParse = some id →
      id.addr = pkt.helloView.source →
      st.peers.lookup id.addr = some q →
      q.id = id →
      helloMacPasses o q pkt.helloView = false →
      (VL1.processAssembled o st now pkt).1 = st ∧
      (VL1.processAssembled o st now pkt).2.sends = [] ∧
      (VL1.processAssembled o st now pkt).2.contacts = [] ∧
      (VL1.processAssembled o st now pkt).2.tryQueueAdds = [] ∧
      (VL1.processAssembled o st now pkt).2.traces.all TraceEvent.isMacFailedDrop = true ∧
      (VL1.processAssembled o st now pkt).2.traces ≠ []) := by
  have hns : ¬ pkt.size < ZT_PROTO_MIN_PACKET_LENGTH := Nat.not_lt.mpr hsz
  constructor
  · intro p hnh hp hcip hmac
    rcases hcip with hc | hc <;>
      simp [VL1.processAssembled, hnh, hp, hns, hc, hc ▸ hmac]
  · intro id q hph hparse haddr hlook hqid hmac
    rw [haddr] at hlook
    have hstep : VL1.m_HELLO o st pkt.helloView = VL1.helloCheckMac o st pkt.helloView id q := by
      simp [VL1.m_HELLO, hparse, haddr, hlook, hqid]
    obtain ⟨tr, hcm, htr⟩ := helloCheckMac_macFail o st pkt.helloView id q hmac
    have hr : VL1.m_HELLO o st pkt.helloView = (none, st, { traces := [tr] }) :=
      hstep.trans hcm
    simp [VL1.processAssembled, hph, hns, hr, htr]

/-- C1 witness: peer A's tampered POLY1305_SALSA2012 packet is dropped with
the MAC_FAILED trace and no other effect, and its tampered plaintext HELLO
(protocol 10) is likewise dropped with only a MAC_FAILED trace. -/
theorem zt_c1_mac_tamper_witness :
    VL1.processAssembled oracleFail stOne 0 pktC1 =
      (stOne, { traces := [.incomingPacketDropped 0xcc89c812 pktC1.packetId .nop .macFailed] }) ∧
    (VL1.processAssembled oracleFail stOne 0 pktC1h).1 = stOne ∧
    (VL1.processAssembled oracleFail stOne 0 pktC1h).2.sends = [] ∧
    (VL1.processAssembled oracleFail stOne 0 pktC1h).2.traces.all TraceEvent.isMacFailedDrop = true ∧
    (VL1.processAssembled oracleFail stOne 0 pktC1h).2.traces ≠ [] := by
  have h1 := (zt_c1_mac_tamper oracleFail stOne 0 pktC1 (by decide)).1 peerA
    (by decide) (by decide) (by decide) (by decide)
  have h2 := (zt_c1_mac_tamper oracleFail stOne 0 pktC1h (by decide)).2 idA peerA
    (by decide) rfl rfl (by decide) rfl (by decide)
  exact ⟨h1, h2.1, h2.2.1, h2.2.2.2.2.1, h2.2.2.2.2.2⟩

/-- C2 amended: a HELLO failing at identity parse, address match or
proof-of-work validation trace-drops, returns no peer and leaves the state
unchanged — no Peer is created.  A HELLO from a previously unknown valid
identity that fails the MAC check also trace-drops (MAC_FAILED) and returns
no peer, but the new Peer has already been registered in Topology before the
MAC check and remains registered. -/
theorem zt_c2_hello_failures (o : CryptoOracle) (st : NodeState) (pkt : HelloPacket) :
    (pkt.identityParse = none →
      VL1.m_HELLO o st pkt = (none, st,
        { traces := [.incomingPacketDropped 0x707a9810 pkt.packetId .hello .invalidObject] })) ∧
    (∀ id, pkt.identityParse = some id → id.addr ≠ pkt.source →
      VL1.m_HELLO o st pkt = (none, st,
        { traces := [.incomingPacketDropped 0x707a9010 pkt.packetId .hello .macFailed] })) ∧
    (∀ id, pkt.identityParse = some id → id.addr = pkt.source →
      st.peers.lookup id.addr = none → id.powValid = false →
      VL1.m_HELLO o st pkt = (none, st,
        { traces := [.incomingPacketDropped 0x707a9892 pkt.packetId .hello .invalidObject] })) ∧
    (∀ id, pkt.identityParse = some id → id.addr = pkt.source →
      st.peers.lookup id.addr = none → id.powValid = true → id.agreeOk = true →
      helloMacPasses o (PeerState.init id) pkt = false →
      (VL1.m_HELLO o st pkt).1 = none ∧
      (VL1.m_HELLO o st pkt).2.1 =
        { st with peers := (id.addr, PeerState.init id) :: st.peers } ∧
      (VL1.m_HELLO o st pkt).2.2.traces.all TraceEvent.isMacFailedDrop = true ∧
      (VL1.m_HELLO o st pkt).2.2.traces ≠ [] ∧
      (VL1.m_HELLO o st pkt).2.2.sends = []) := by
  refine ⟨?_, ?_, ?_, ?_⟩
  · intro h
    simp [VL1.m_HELLO, h]
  · intro id hparse hne
    simp [VL1.m_HELLO, hparse, hne]
  · intro id hparse haddr hlook hpow
    simp [VL1.m_HELLO, hparse, haddr, haddr ▸ hlook, hpow]
  · intro id hparse haddr hlook hpow hagree hmac
    have hstep : VL1.m_HELLO o st pkt =
        VL1.helloCheckMac o { st with peers := (id.addr, PeerState.init id) :: st.peers }
          pkt id (PeerState.init id) := by
      simp [VL1.m_HELLO, hparse, haddr, haddr ▸ hlook, hpow, hagree]
    obtain ⟨tr, hcm, htr⟩ := helloCheckMac_macFail o
      { st with peers := (id.addr, PeerState.init id) :: st.peers } pkt id
      (PeerState.init id) hmac
    have hr := hstep.trans hcm
    simp [hr, htr]

/-- C2 witness: the identity-parse, address-mismatch and proof-of-work
failures drop without touching the empty state, and the MAC-failing HELLO
with a fresh valid identity drops with a MAC_FAILED trace while leaving the
new peer registered. -/
theorem zt_c2_hello_failures_witness :
    VL1.m_HELLO oracleFail st0 helloBad1 = (none, st0,
      { traces := [.incomingPacketDropped 0x707a9810 helloBad1.packetId .hello .invalidObject] }) ∧
    VL1.m_HELLO oracleFail st0 helloBad2 = (none, st0,
      { traces := [.incomingPacketDropped 0x707a9010 helloBad2.packetId .hello .macFailed] }) ∧
    VL1.m_HELLO oracleFail st0 helloBad3 = (none, st0,
      { traces := [.incomingPacketDropped 0x707a9892 helloBad3.packetId .hello .invalidObject] }) ∧
    (VL1.m_HELLO oracleFail st0 helloNew).1 = none ∧
    (VL1.m_HELLO oracleFail st0 helloNew).2.1 =
      { st0 with peers := (idA.addr, PeerState.init idA) :: st0.peers } ∧
    (VL1.m_HELLO oracleFail st0 helloNew).2.2.traces.all TraceEvent.isMacFailedDrop = true := by
  have h4 := (zt_c2_hello_failures oracleFail st0 helloNew).2.2.2 idA rfl rfl rfl rfl rfl
    (by decide)
  exact ⟨(zt_c2_hello_failures oracleFail st0 helloBad1).1 rfl,
    (zt_c2_hello_failures oracleFail st0 helloBad2).2.1 idA rfl (by decide),
    (zt_c2_hello_failures oracleFail st0 helloBad3).2.2.1 idBadPow rfl rfl rfl rfl,
    h4.1, h4.2.1, h4.2.2.1⟩

/-- C2 counterexample: a HELLO carrying a previously unknown valid identity
whose MAC check fails is trace-dropped and returns no peer — yet the new
Peer is present in Topology afterwards, refuting the claim that no new Peer
remains registered as a result of the packet. -/
theorem zt_c2_cex :
    (VL1.m_HELLO oracleFail st0 helloNew).1 = none ∧
    (VL1.m_HELLO oracleFail st0 helloNew).2.2.traces =
      [.incomingPacketDropped 0x707a9891 helloNew.packetId .hello .macFailed] ∧
    st0.peers.lookup idA.addr = none ∧
    (VL1.m_HELLO oracleFail st0 helloNew).2.1.peers.lookup idA.addr =
      some (PeerState.init idA) := by
  decide

theorem whoisTakeAux_append (l : List Address) :
    ∀ p, (VL1.whoisTakeAux p l).1 ++ (VL1.whoisTakeAux p l).2 = l := by
  induction l with
  | nil => intro p; rfl
  | cons a rest ih =>
      intro p
      unfold VL1.whoisTakeAux
      split
      · simpa using ih _
      · rfl

theorem whoisTakeAux_snd_length (l : List Address) :
    ∀ p, (VL1.whoisTakeAux p l).2.length ≤ l.length := by
  induction l with
  | nil => intro p; simp [VL1.whoisTakeAux]
  | cons a rest ih =>
      intro p
      unfold VL1.whoisTakeAux
      split
      · exact Nat.le_succ_of_le (ih _)
      · simp

theorem whoisBatchesAux_flatten (fuel : Nat) :
    ∀ l : List Address, l.length ≤ fuel → (VL1.whoisBatchesAux fuel l).flatten = l := by
  induction fuel with
  | zero =>
      intro l hl
      rw [Nat.le_zero, List.length_eq_zero] at hl
      subst hl; rfl
  | succ f ih =>
      intro l hl
      cases l with
      | nil => rfl
      | cons a rest =>
          unfold VL1.whoisBatchesAux
          rw [List.flatten_cons, List.cons_append]
          have hrec := ih (VL1.whoisTakeAux (PROTO_HEADER_SIZE + ZT_ADDRESS_LENGTH) rest).2
            (by
              have h1 := whoisTakeAux_snd_length rest (PROTO_HEADER_SIZE + ZT_ADDRESS_LENGTH)
              have h2 : rest.length ≤ f := by simpa using hl
              omega)
          rw [hrec, whoisTakeAux_append]

theorem whoisBatches_flatten (l : List Address) : (VL1.whoisBatches l).flatten = l :=
  whoisBatchesAux_flatten l.length l (Nat.le_refl _)

theorem sendWhoisBatches_covers (ra : Address) (now : Int) (src : Address)
    (batches : List (List Address)) :
    ∀ kc expect, src ∈ batches.flatten →
      ((VL1.sendWhoisBatches ra now kc expect batches).1.any
        (SendEvent.asksWhois ra src)) = true := by
  induction batches with
  | nil => intro kc expect h; simp at h
  | cons b rest ih =>
      intro kc expect h
      rw [List.flatten_cons] at h
      unfold VL1.sendWhoisBatches
      simp only [List.any_cons]
      rw [Bool.or_eq_true]
      rcases List.mem_append.mp h with hb | hr
      · left
        simp [SendEvent.asksWhois, hb]
      · right
        exact ih _ _ hr

theorem lookup_map_stamp (l : List (Address × WhoisQueueItem)) (k : Address) (now : Int) :
    (l.map (fun e => if ZT_WHOIS_RETRY_DELAY ≤ now - e.2.lastRetry then
        (e.1, { e.2 with lastRetry := now, retries := e.2.retries + 1 }) else e)).lookup k =
      (l.lookup k).map (fun w => if ZT_WHOIS_RETRY_DELAY ≤ now - w.lastRetry then
        { w with lastRetry := now, retries := w.retries + 1 } else w) := by
  induction l with
  | nil => rfl
  | cons e es ih =>
      simp only [List.map_cons]
      by_cases hg : ZT_WHOIS_RETRY_DELAY ≤ now - e.2.lastRetry <;>
        [rw [if_pos hg]; rw [if_neg hg]] <;>
        by_cases hk : k = e.1
      · subst hk; simp [List.lookup, hg]
      · have hbk : (k == e.1) = false := beq_eq_false_iff_ne.mpr hk
        simp [List.lookup, hbk, ih]
      · subst hk; simp [List.lookup, hg]
      · have hbk : (k == e.1) = false := beq_eq_false_iff_ne.mpr hk
        simp [List.lookup, hbk, ih]

theorem lookup_map_replace {α β : Type} [DecidableEq α]
    (l : List (α × β)) (k : α) (v : β) :
    (l.map (fun e => if e.1 = k then (k, v) else e)).lookup k =
      if (l.lookup k).isSome then some v else none := by
  induction l with
  | nil => rfl
  | cons e es ih =>
      rcases e with ⟨a, b⟩
      simp only [List.map_cons]
      by_cases hk : a = k
      · rw [if_pos hk]
        subst hk
        rw [lookup_cons_pair, lookup_cons_pair]
        simp
      · rw [if_neg hk]
        rw [lookup_cons_pair, lookup_cons_pair, if_neg (Ne.symm hk), if_neg (Ne.symm hk), ih]

theorem alSet_lookup {α β : Type} [DecidableEq α] (l : List (α × β)) (k : α) (v : β) :
    (alSet l k v).lookup k = some v := by
  unfold alSet
  split
  · rw [lookup_map_replace]
    simp_all
  · simp [List.lookup]

theorem mem_filter_map_fst (now : Int) (l : List (Address × WhoisQueueItem)) (k : Address)
    (w : WhoisQueueItem) (hl : l.lookup k = some w)
    (hc : ZT_WHOIS_RETRY_DELAY ≤ now - w.lastRetry) :
    k ∈ (l.filter (fun e => decide (ZT_WHOIS_RETRY_DELAY ≤ now - e.2.lastRetry))).map (·.1) := by
  induction l with
  | nil => simp [List.lookup] at hl
  | cons e es ih =>
      by_cases hk : k = e.1
      · have : e.2 = w := by
          have hbk : (k == e.1) = true := beq_iff_eq.mpr hk
          simpa [List.lookup, hbk] using hl
        subst this
        rw [List.filter_cons]
        simp only [decide_eq_true_eq] at *
        rw [if_pos (by simpa using hc)]
        simp [hk]
      · have hbk : (k == e.1) = false := beq_eq_false_iff_ne.mpr hk
        have hl2 : es.lookup k = some w := by simpa [List.lookup, hbk] using hl
        rw [List.filter_cons]
        split
        · simp only [List.map_cons, List.mem_cons]
          right
          exact ih hl2
        · exact ih hl2

theorem mem_set_self {α : Type} (l : List α) (i : Nat) (a : α) (h : i < l.length) :
    a ∈ l.set i a := by
  induction l generalizing i with
  | nil => simp at h
  | cons b bs ih =>
      cases i with
      | zero => simp [List.set]
      | succ j =>
          simp only [List.set, List.mem_cons]
          right
          exact ih j (by simpa using h)

/-- m_sendPendingWhois never changes the stashed packets of a queue entry:
it only stamps retry metadata. -/
theorem sendPendingWhois_waiting (st : NodeState) (now : Int) (k : Address) :
    ((((VL1.m_sendPendingWhois st now).1.whoisQueue.lookup k).getD {}).waiting) =
      (((st.whoisQueue.lookup k).getD {}).waiting) := by
  unfold VL1.m_sendPendingWhois
  cases hh : st.rootPeers.head? with
  | none => rfl
  | some ra =>
      dsimp only
      cases hl : st.peers.lookup ra with
      | none => rfl
      | some r =>
          dsimp only
          cases hcp : r.curPath with
          | none => rfl
          | some pid =>
              dsimp only
              split <;>
              · dsimp only
                rw [lookup_map_stamp]
                cases hw : st.whoisQueue.lookup k with
                | none => rfl
                | some w =>
                    by_cases hg : ZT_WHOIS_RETRY_DELAY ≤ now - w.lastRetry <;>
                      simp [hg]

/-- m_sendPendingWhois sends nothing when no root with a live path exists. -/
theorem sendPendingWhois_no_root (st : NodeState) (now : Int)
    (h : st.currentRoot = none) : (VL1.m_sendPendingWhois st now).2 = ({} : Effects) := by
  unfold VL1.m_sendPendingWhois
  unfold NodeState.currentRoot at h
  cases hh : st.rootPeers.head? with
  | none => rfl
  | some ra =>
      rw [hh] at h
      dsimp only at h ⊢
      cases hl : st.peers.lookup ra with
      | none => rfl
      | some r =>
          rw [hl] at h
          dsimp only at h ⊢
          cases hcp : r.curPath with
          | none => rfl
          | some _ => rw [hcp] at h; simp at h

/-- m_sendPendingWhois sends a WHOIS to the current root querying every
queued address whose retry gate has elapsed. -/
theorem sendPendingWhois_covers (st : NodeState) (now : Int) (ra src : Address)
    (w : WhoisQueueItem)
    (hroot : st.currentRoot = some ra)
    (hlk : st.whoisQueue.lookup src = some w)
    (hg : ZT_WHOIS_RETRY_DELAY ≤ now - w.lastRetry) :
    ((VL1.m_sendPendingWhois st now).2.sends.any (SendEvent.asksWhois ra src)) = true := by
  unfold NodeState.currentRoot at hroot
  unfold VL1.m_sendPendingWhois
  cases hh : st.rootPeers.head? with
  | none => rw [hh] at hroot; simp at hroot
  | some ra0 =>
      rw [hh] at hroot
      dsimp only at hroot ⊢
      cases hl : st.peers.lookup ra0 with
      | none => rw [hl] at hroot; simp at hroot
      | some r =>
          rw [hl] at hroot
          dsimp only at hroot ⊢
          cases hcp : r.curPath with
          | none => rw [hcp] at hroot; simp at hroot
          | some pid =>
              rw [hcp] at hroot
              simp only [Option.isSome_some, if_true] at hroot
              obtain rfl : ra0 = ra := by simpa using hroot
              dsimp only
              have hmemts : src ∈ (st.whoisQueue.filter
                  (fun e => decide (ZT_WHOIS_RETRY_DELAY ≤ now - e.2.lastRetry))).map (·.1) :=
                mem_filter_map_fst now st.whoisQueue src w hlk hg
              have hne : ((st.whoisQueue.filter
                  (fun e => decide (ZT_WHOIS_RETRY_DELAY ≤ now - e.2.lastRetry))).map
                    (·.1)).isEmpty = false := by
                cases hts : (st.whoisQueue.filter
                    (fun e => decide (ZT_WHOIS_RETRY_DELAY ≤ now - e.2.lastRetry))).map (·.1) with
                | nil => rw [hts] at hmemts; simp at hmemts
                | cons x xs => rfl
              rw [if_neg (by simp [hne])]
              dsimp only
              exact sendWhoisBatches_covers _ now src _ _ _
                (by rw [whoisBatches_flatten]; exact hmemts)

/-- C8 amended: a fully assembled packet whose source has no known Peer is
stashed in the WHOIS queue ring under the source address, and the pending
WHOIS is sent to the current root exactly when the per-address retry gate
permits and a current root with a live path exists; when the gate denies, or
when no live root is available, nothing is sent. -/
theorem zt_c8_whois_queue (o : CryptoOracle) (st : NodeState) (now : Int)
    (pkt : AssembledPacket)
    (hunk : st.peers.lookup pkt.source = none)
    (hnh : ¬ plaintextHelloCase pkt)
    (hsz : ZT_PROTO_MIN_PACKET_LENGTH ≤ pkt.size)
    (hwlen : ((st.whoisQueue.lookup pkt.source).getD {}).waiting.length =
      ZT_VL1_MAX_WHOIS_WAITING_PACKETS) :
    (some (pkt.size, pkt.body) ∈
      (((VL1.processAssembled o st now pkt).1.whoisQueue.lookup pkt.source).getD {}).waiting) ∧
    (¬ ZT_WHOIS_RETRY_DELAY ≤ now - ((st.whoisQueue.lookup pkt.source).getD {}).lastRetry →
      (VL1.processAssembled o st now pkt).2.sends = []) ∧
    (ZT_WHOIS_RETRY_DELAY ≤ now - ((st.whoisQueue.lookup pkt.source).getD {}).lastRetry →
      st.currentRoot = none →
      (VL1.processAssembled o st now pkt).2.sends = []) ∧
    (∀ ra, ZT_WHOIS_RETRY_DELAY ≤ now - ((st.whoisQueue.lookup pkt.source).getD {}).lastRetry →
      st.currentRoot = some ra →
      ((VL1.processAssembled o st now pkt).2.sends.any
        (SendEvent.asksWhois ra pkt.source)) = true) := by
  have hns : ¬ pkt.size < ZT_PROTO_MIN_PACKET_LENGTH := Nat.not_lt.mpr hsz
  have hred : VL1.processAssembled o st now pkt =
      VL1.whoisStash st now pkt.source pkt.size pkt.body := by
    simp [VL1.processAssembled, hnh, hunk]
  refine ⟨?_, ?_, ?_, ?_⟩
  · rw [hred]
    unfold VL1.whoisStash
    rw [if_neg hns]
    dsimp only
    by_cases hg : ZT_WHOIS_RETRY_DELAY ≤ now -
        ((st.whoisQueue.lookup pkt.source).getD {}).lastRetry
    · rw [if_pos hg, sendPendingWhois_waiting]
      unfold stashState
      rw [alSet_lookup]
      simp only [Option.getD_some]
      unfold stashEntry
      dsimp only
      exact mem_set_self _ _ _ (by rw [hwlen]; exact Nat.mod_lt _ (by decide))
    · rw [if_neg hg]
      dsimp only
      unfold stashState
      rw [alSet_lookup]
      simp only [Option.getD_some]
      unfold stashEntry
      dsimp only
      exact mem_set_self _ _ _ (by rw [hwlen]; exact Nat.mod_lt _ (by decide))
  · intro hg
    rw [hred]
    unfold VL1.whoisStash
    rw [if_neg hns]
    dsimp only
    rw [if_neg hg]
  · intro hg hroot
    rw [hred]
    unfold VL1.whoisStash
    rw [if_neg hns]
    dsimp only
    rw [if_pos hg]
    rw [sendPendingWhois_no_root (stashState st pkt.source pkt.size pkt.body) now hroot]
  · intro ra hg hroot
    rw [hred]
    unfold VL1.whoisStash
    rw [if_neg hns]
    dsimp only
    rw [if_pos hg]
    exact sendPendingWhois_covers (stashState st pkt.source pkt.size pkt.body) now ra
      pkt.source (stashEntry st pkt.source pkt.size pkt.body) hroot
      (alSet_lookup st.whoisQueue pkt.source (stashEntry st pkt.source pkt.size pkt.body)) hg

/-- C8 witness: on a node with a live root, an assembled packet from unknown
peer B whose retry gate permits is stashed and a WHOIS querying B is sent to
the root; at a time when the gate denies, nothing is sent. -/
theorem zt_c8_whois_queue_witness :
    ((VL1.processAssembled oracleFail stRootReach 1000 pktC8).2.sends.any
      (SendEvent.asksWhois idRoot.addr idB.addr)) = true ∧
    (some (pktC8.size, pktC8.body) ∈
      (((VL1.processAssembled oracleFail stRootReach 1000 pktC8).1.whoisQueue.lookup
        idB.addr).getD {}).waiting) ∧
    (VL1.processAssembled oracleFail stRootReach 0 pktC8).2.sends = [] := by
  have h1 := zt_c8_whois_queue oracleFail stRootReach 1000 pktC8
    (by decide) (by decide) (by decide) (by decide)
  have h2 := zt_c8_whois_queue oracleFail stRootReach 0 pktC8
    (by decide) (by decide) (by decide) (by decide)
  exact ⟨h1.2.2.2 idRoot.addr (by decide) (by decide), h1.1, h2.2.1 (by decide)⟩

/-- C8 counterexample: with no root configured, an assembled packet from an
unknown peer whose retry gate permits is stashed but no WHOIS is sent —
refuting the claim that a WHOIS is sent if and only if the retry gate
permits. -/
theorem zt_c8_cex :
    ZT_WHOIS_RETRY_DELAY ≤ (1000 : Int) -
      ((st0.whoisQueue.lookup idB.addr).getD {}).lastRetry ∧
    st0.peers.lookup pktC8.source = none ∧
    (VL1.processAssembled oracleFail st0 1000 pktC8).2.sends = [] ∧
    (some (pktC8.size, pktC8.body) ∈
      (((VL1.processAssembled oracleFail st0 1000 pktC8).1.whoisQueue.lookup
        idB.addr).getD {}).waiting) := by
  decide

/-- C6: a well-formed PUSH_DIRECT_PATHS with one parseable v4 record makes
the handler emit a tryingNewPath trace for the parsed address but add
nothing to the peer's try-queue — the source has only a TODO comment where
Peer::tryDirectPath would be called. -/
theorem zt_c6_pdp_bug :
    VL1.m_PUSH_DIRECT_PATHS epNone idA.addr pdpPkt =
      (true, { traces := [.tryingNewPath 0xa5ab1a43 idA.addr rdvAt idA.addr] }) ∧
    (VL1.m_PUSH_DIRECT_PATHS epNone idA.addr pdpPkt).2.tryQueueAdds = [] ∧
    (VL1.m_PUSH_DIRECT_PATHS epNone idA.addr pdpPkt).2.traces ≠ [] := by
  decide

end ZeroTier
